import Mathlib

/-
Verification development for the openGL-SpinningTopGame repository
(src/main.cpp).  The verifiable core is the `Terrain` class (a height
field with a lazily recomputed normal field), the heightmap loader
`loadTerrain`, and the scalar game state mutated by `detect`, `update`
and the two keyboard handlers.

Modelling conventions:
  * C++ `float` values are embedded as real numbers (exact arithmetic).
  * The raw 2D arrays `hs` / `normals` are embedded as total functions
    `Int → Int → _` representing the surrounding memory: the C++ code
    performs no bounds checks, so an access at any coordinate simply
    reads/writes the memory at the computed address.  In-bounds cells
    are the region `[0,l) × [0,w)`.
  * `new float[w]` default-initializes non-class types, leaving the
    values indeterminate (C++ [dcl.init]); the constructor therefore
    takes the pre-existing memory contents as explicit parameters and
    writes no height values.
-/

noncomputable section

/-- Modelled from the spec: 3-component float vector (the repository's
`vec3f.h` is not under src/; the spec's glossary describes cross
products, Euclidean magnitude and normalization to unit length). -/
structure Vec3 where
  x : ℝ
  y : ℝ
  z : ℝ

/-- Modelled from the spec: componentwise vector addition (`operator+=`). -/
instance : Add Vec3 := ⟨fun a b => ⟨a.x + b.x, a.y + b.y, a.z + b.z⟩⟩

/-- Modelled from the spec: scaling a vector by a scalar (`operator*`),
used with the fallout factor 0.5 in the smoothing pass. -/
def Vec3.scale (v : Vec3) (c : ℝ) : Vec3 := ⟨v.x * c, v.y * c, v.z * c⟩

/-- Modelled from the spec: the standard cross product ("Face normal:
the perpendicular vector to a small planar patch formed by two edge
vectors, computed via cross product"). -/
def Vec3.cross (a b : Vec3) : Vec3 :=
  ⟨a.y * b.z - a.z * b.y, a.z * b.x - a.x * b.z, a.x * b.y - a.y * b.x⟩

/-- Modelled from the spec: Euclidean magnitude of a vector. -/
def Vec3.magnitude (v : Vec3) : ℝ :=
  Real.sqrt (v.x ^ 2 + v.y ^ 2 + v.z ^ 2)

/-- Modelled from the spec: normalization to unit length (divide each
component by the magnitude). -/
def Vec3.normalize (v : Vec3) : Vec3 :=
  ⟨v.x / v.magnitude, v.y / v.magnitude, v.z / v.magnitude⟩

/-- The Terrain aggregate (main.cpp lines 45-52): width `w`, length `l`,
height storage `hs` (indexed `hs z x`, mirroring `hs[z][x]`), normal
storage `normals` (indexed `normals z x`), and the dirty flag
`computedNormals`. -/
structure Terrain where
  w : Int
  l : Int
  hs : Int → Int → ℝ
  normals : Int → Int → Vec3
  computedNormals : Bool

/-- Constructor body (lines 53-68): allocates the two grids — without
initializing any cell (`new float[w]` leaves indeterminate values, and
`new Vec3f[w]` runs Vec3f's trivial default constructor) — and clears
the dirty flag.  `memH`/`memN` are the pre-existing contents of the
allocated memory. -/
def Terrain.fresh (w l : Int) (memH : Int → Int → ℝ)
    (memN : Int → Int → Vec3) : Terrain :=
  ⟨w, l, memH, memN, false⟩

/-- Allocation failure of `new[]`: a negative array extent makes `new`
throw `std::bad_array_new_length`. -/
inductive AllocError where
  | badArrayNewLength

/-- Constructor including the only way it can fail (lines 53-68): the
body performs no dimension validation at all; `new float*[l]` throws
for `l < 0`, and the per-row `new float[w]` (reached only when `l > 0`)
throws for `w < 0`.  Zero extents allocate successfully. -/
def mkTerrainE (w l : Int) (memH : Int → Int → ℝ)
    (memN : Int → Int → Vec3) : Except AllocError Terrain :=
  if l < 0 then .error .badArrayNewLength
  else if 0 < l ∧ w < 0 then .error .badArrayNewLength
  else .ok (Terrain.fresh w l memH memN)

/-- `setHeight` (lines 91-94): `hs[z][x] = y; computedNormals = false;`
— an unconditional raw store, no bounds check. -/
def Terrain.setHeight (t : Terrain) (x z : Int) (y : ℝ) : Terrain :=
  { t with
    hs := fun zi xi => if zi = z ∧ xi = x then y else t.hs zi xi,
    computedNormals := false }

/-- `getHeight` (lines 97-99): `return hs[z][x];` — an unconditional raw
load, no bounds check. -/
def Terrain.getHeight (t : Terrain) (x z : Int) : ℝ :=
  t.hs z x

/-- Pass 1 of `computeNormals` (lines 113-149): the rough normal stored
in `normals2[z][x]`.  The four edge vectors are only assigned under
their guards (otherwise the C++ `Vec3f` is default-constructed garbage,
which the code never reads; the placeholder `⟨0,0,0⟩` stands for that
unused value), and the four guarded cross products are normalized and
accumulated in source order. -/
def rawNormal (hs : Int → Int → ℝ) (w l : Int) (z x : Int) : Vec3 :=
  let out : Vec3 := if 0 < z then ⟨0, hs (z-1) x - hs z x, -1⟩ else ⟨0, 0, 0⟩
  let inn : Vec3 := if z < l - 1 then ⟨0, hs (z+1) x - hs z x, 1⟩ else ⟨0, 0, 0⟩
  let left : Vec3 := if 0 < x then ⟨-1, hs z (x-1) - hs z x, 0⟩ else ⟨0, 0, 0⟩
  let right : Vec3 := if x < w - 1 then ⟨1, hs z (x+1) - hs z x, 0⟩ else ⟨0, 0, 0⟩
  let s1 : Vec3 := if 0 < x ∧ 0 < z then
    Vec3.mk 0 0 0 + (out.cross left).normalize else Vec3.mk 0 0 0
  let s2 : Vec3 := if 0 < x ∧ z < l - 1 then s1 + (left.cross inn).normalize else s1
  let s3 : Vec3 := if x < w - 1 ∧ z < l - 1 then s2 + (inn.cross right).normalize else s2
  let s4 : Vec3 := if x < w - 1 ∧ 0 < z then s3 + (right.cross out).normalize else s3
  s4

/-- The smoothing sum `sum` of pass 2 of `computeNormals` (lines
155-168): the cell's own rough normal plus the rough normals of its
in-bounds 4-neighbors, each scaled by `FALLOUT_RATIO = 0.5`,
accumulated in source order. -/
def smoothSum (hs : Int → Int → ℝ) (w l : Int) (z x : Int) : Vec3 :=
  let s1 : Vec3 := rawNormal hs w l z x
  let s2 : Vec3 := if 0 < x then s1 + (rawNormal hs w l z (x-1)).scale 0.5 else s1
  let s3 : Vec3 := if x < w - 1 then s2 + (rawNormal hs w l z (x+1)).scale 0.5 else s2
  let s4 : Vec3 := if 0 < z then s3 + (rawNormal hs w l (z-1) x).scale 0.5 else s3
  if z < l - 1 then s4 + (rawNormal hs w l (z+1) x).scale 0.5 else s4

/-- Pass 2 of `computeNormals` (lines 152-175): the smoothing sum,
followed by the zero-magnitude fallback to `(0,1,0)` (lines 170-172).
The final value is not normalized. -/
def smoothedNormal (hs : Int → Int → ℝ) (w l : Int) (z x : Int) : Vec3 :=
  if (smoothSum hs w l z x).magnitude = 0 then ⟨0, 1, 0⟩ else smoothSum hs w l z x

/-- `computeNormals` (lines 102-183): early return when the cached
normals are valid; otherwise the whole normal field is recomputed in
the two passes above and the flag is set. -/
def Terrain.computeNormals (t : Terrain) : Terrain :=
  if t.computedNormals then t
  else
    { t with
      normals := fun z x => smoothedNormal t.hs t.w t.l z x,
      computedNormals := true }

/-- `getNormal` (lines 186-191): recompute when stale, then read
`normals[z][x]` (unconditional raw load, no bounds check). -/
def Terrain.getNormal (t : Terrain) (x z : Int) : Vec3 :=
  (t.computeNormals).normals z x

/-- Reference pass 1, written from the spec's words: "Accumulate the sum
of the cross products of four adjacent edge-vector pairs, each
normalized to unit length before summation, but only when both operand
vectors are defined": out×left (x>0, z>0), left×in (x>0, z<length-1),
in×right (x<width-1, z<length-1), right×out (x<width-1, z>0), with
out=(0,h[z-1][x]-h[z][x],-1), in=(0,h[z+1][x]-h[z][x],1),
left=(-1,h[z][x-1]-h[z][x],0), right=(1,h[z][x+1]-h[z][x],0). -/
def referenceRawNormal (hs : Int → Int → ℝ) (w l : Int) (z x : Int) : Vec3 :=
  (if 0 < x ∧ 0 < z then
    (Vec3.cross ⟨0, hs (z-1) x - hs z x, -1⟩ ⟨-1, hs z (x-1) - hs z x, 0⟩).normalize
   else Vec3.mk 0 0 0) +
  (if 0 < x ∧ z < l - 1 then
    (Vec3.cross ⟨-1, hs z (x-1) - hs z x, 0⟩ ⟨0, hs (z+1) x - hs z x, 1⟩).normalize
   else Vec3.mk 0 0 0) +
  (if x < w - 1 ∧ z < l - 1 then
    (Vec3.cross ⟨0, hs (z+1) x - hs z x, 1⟩ ⟨1, hs z (x+1) - hs z x, 0⟩).normalize
   else Vec3.mk 0 0 0) +
  (if x < w - 1 ∧ 0 < z then
    (Vec3.cross ⟨1, hs z (x+1) - hs z x, 0⟩ ⟨0, hs (z-1) x - hs z x, -1⟩).normalize
   else Vec3.mk 0 0 0)

/-- Reference pass 2, written from the spec's words: "take its raw
normal and add the raw normals of its in-bounds 4-neighbors (x-1, x+1,
z-1, z+1, each only if in bounds) each scaled by a fallout factor of
0.5.  If the resulting sum has zero magnitude, replace it with (0,1,0).
Do not normalize the final result." -/
def referenceSmoothSum (hs : Int → Int → ℝ) (w l : Int) (z x : Int) : Vec3 :=
  referenceRawNormal hs w l z x +
  (if 0 < x then (referenceRawNormal hs w l z (x-1)).scale 0.5 else Vec3.mk 0 0 0) +
  (if x < w - 1 then (referenceRawNormal hs w l z (x+1)).scale 0.5 else Vec3.mk 0 0 0) +
  (if 0 < z then (referenceRawNormal hs w l (z-1) x).scale 0.5 else Vec3.mk 0 0 0) +
  (if z < l - 1 then (referenceRawNormal hs w l (z+1) x).scale 0.5 else Vec3.mk 0 0 0)

/-- Reference fallback step, from the spec's words: "If the resulting
sum has zero magnitude, replace it with (0,1,0) ... Do not normalize
the final result". -/
def referenceSmoothedNormal (hs : Int → Int → ℝ) (w l : Int) (z x : Int) : Vec3 :=
  if (referenceSmoothSum hs w l z x).magnitude = 0 then ⟨0, 1, 0⟩
  else referenceSmoothSum hs w l z x

/-- Indicator sum used to describe the raw normal over a flat height
field: the number of eligible cross-product pairs at cell (x,z). -/
def upCount (w l : Int) (z x : Int) : ℝ :=
  (if 0 < x ∧ 0 < z then 1 else 0) +
  (if 0 < x ∧ z < l - 1 then 1 else 0) +
  (if x < w - 1 ∧ z < l - 1 then 1 else 0) +
  (if x < w - 1 ∧ 0 < z then 1 else 0)

/-- Decoded image as consumed by `loadTerrain` (the decoder itself is an
external collaborator): width, height, and the flat per-pixel byte
buffer. -/
structure Image where
  width : Nat
  height : Nat
  pixels : Nat → Nat

/-- Height assigned to cell (x, y) by the loader (lines 201-204):
`height * ((color / 255.0f) - 0.5f)` where `color` is byte
`pixels[3 * (y * width + x)]`. -/
def pixelHeight (img : Image) (amp : ℝ) (x y : Nat) : ℝ :=
  amp * ((img.pixels (3 * (y * img.width + x)) : ℝ) / 255 - 0.5)

/-- Inner loop of `loadTerrain` (lines 200-205): one row of `setHeight`
calls. -/
def loadRow (img : Image) (amp : ℝ) (y : Nat) (t : Terrain) : Terrain :=
  (List.range img.width).foldl
    (fun t (x : Nat) => t.setHeight (x : Int) (y : Int) (pixelHeight img amp x y)) t

/-- `loadTerrain` (lines 196-211): construct `Terrain(width, height)`,
set every cell's height from the first channel of its pixel, then
eagerly `computeNormals()`. -/
def loadTerrain (img : Image) (amp : ℝ) (memH : Int → Int → ℝ)
    (memN : Int → Int → Vec3) : Terrain :=
  ((List.range img.height).foldl (fun t y => loadRow img amp y t)
      (Terrain.fresh (img.width : Int) (img.height : Int) memH memN)).computeNormals

/-- The global scalar game state (lines 213-229). `angle` stands for the
C++ global `_angle`. -/
structure GameState where
  angle : ℝ
  theta : ℝ
  yax : ℝ
  xax : ℝ
  zax : ℝ
  fi : ℝ
  xpos : ℝ
  zpos : ℝ
  xvel : ℝ
  zvel : ℝ
  acc : ℝ
  tarx : ℝ
  tarz : ℝ
  cam : Int
  savy : ℝ
  score : Int

/-- The startup values of the globals (lines 213-229); `r` is the value
returned by `rand()` for `tarz = rand() % 30 + 15`. -/
def initialState (r : Nat) : GameState :=
  ⟨-140, 350, -3, 6, 6, 0, 8, 8, 0, 0, 0, 55, ((r % 30 + 15 : ℕ) : ℝ), 1, 0, 30⟩

/-- The distance test of `detect` (line 502):
`sqrt((xpos-tarx)*(xpos-tarx)+(zpos-tarz-22)*(zpos-tarz-22))`. -/
def hitDist (s : GameState) : ℝ :=
  Real.sqrt ((s.xpos - s.tarx) * (s.xpos - s.tarx) +
    (s.zpos - s.tarz - 22) * (s.zpos - s.tarz - 22))

/-- `detect` (lines 498-522): when the avatar is within 7.5 of the
target, increment the score and reset every game-state scalar to its
startup value (with a fresh `rand()` draw `r` for `tarz`); otherwise do
nothing. -/
def detect (r : Nat) (s : GameState) : GameState :=
  if hitDist s < 7.5 then
    { s with
      score := s.score + 1, angle := -140, theta := 350, yax := -3,
      xax := 6, zax := 6, fi := 0, xpos := 8, zpos := 8, xvel := 0,
      zvel := 0, acc := 0, tarx := 55, tarz := ((r % 30 + 15 : ℕ) : ℝ),
      cam := 1, savy := 0 }
  else s

/-- Keys handled by `handleKeypress` (lines 235-357); `other` covers
every byte the switch ignores. -/
inductive Key where
  | esc | space | kw | ks | ka | kd | kc | kv | kz | kk | kh | kj
  | ku | kx | kl | k0 | k1 | k2 | k3 | k5 | other

/-- `handleKeypress` (lines 235-357).  Case 27 prints and exits the
process (no state scalar changes before exit); case '0' issues only
camera matrix calls; both leave the game-state scalars unchanged. -/
def handleKeypress (k : Key) (s : GameState) : GameState :=
  match k with
  | .esc => s
  | .space => { s with theta := s.theta + 10 }
  | .kw => { s with zax := s.zax + 1 }
  | .ks => { s with zax := s.zax - 1 }
  | .ka => { s with xax := s.xax + 1 }
  | .kd => { s with xax := s.xax - 1 }
  | .kc => { s with angle := s.angle + 10 }
  | .kv => { s with angle := s.angle - 10 }
  | .kz => { s with yax := s.yax + 1 }
  | .kk => { s with zpos := s.zpos + 1 }
  | .kh => { s with zpos := s.zpos - 1 }
  | .kj => { s with xpos := s.xpos - 1 }
  | .ku => { s with xpos := s.xpos + 1 }
  | .kx => { s with yax := s.yax - 1 }
  | .kl => { s with xvel := s.acc * Real.cos s.fi, zvel := s.acc * Real.sin s.fi,
                    acc := 0, fi := 0 }
  | .k0 => s
  | .k1 => { s with angle := -140, theta := 350, yax := -3, xax := 6, zax := 6, cam := 1 }
  | .k2 => { s with xax := -1 * s.xpos / 5, zax := -1 * s.zpos / 5,
                    yax := s.savy / 5, theta := 370, cam := 2 }
  | .k3 => { s with xax := 4, yax := -7, zax := 4, theta := 310, angle := -140, cam := 3 }
  | .k5 => { s with xax := -1 * s.xpos / 5 - 2, zax := -1 * s.zpos / 5 - 2,
                    yax := s.savy / 5 - 5, cam := 5, theta := 310, angle := -140 }
  | .other => s

/-- Special keys handled by `handleKeypress2` (lines 360-384). -/
inductive SpecialKey where
  | up | down | left | right | other

/-- `handleKeypress2` (lines 360-384). -/
def handleKeypress2 (k : SpecialKey) (s : GameState) : GameState :=
  match k with
  | .up => { s with acc := s.acc + 0.3 }
  | .down => { s with acc := s.acc - 0.3 }
  | .left => { s with fi := s.fi - 0.05 }
  | .right => { s with fi := s.fi + 0.05 }
  | .other => s

/-- Statements `xpos += xvel; zpos += zvel;` of `update` (lines 637-638). -/
def updatePos (s : GameState) : GameState :=
  { s with xpos := s.xpos + s.xvel, zpos := s.zpos + s.zvel }

/-- Lines 639-646 of `update`: snap small velocities to zero. -/
def updateSnap (s : GameState) : GameState :=
  let s := if -0.08 < s.xvel ∧ s.xvel < 0.08 then { s with xvel := 0 } else s
  if -0.08 < s.zvel ∧ s.zvel < 0.08 then { s with zvel := 0 } else s

/-- Lines 647-654 of `update`: friction on both velocity components. -/
def updateFriction (s : GameState) : GameState :=
  let s := if 0 < s.xvel then { s with xvel := s.xvel - 0.05 }
           else if s.xvel < 0 then { s with xvel := s.xvel + 0.05 } else s
  if 0 < s.zvel then { s with zvel := s.zvel - 0.05 }
  else if s.zvel < 0 then { s with zvel := s.zvel + 0.05 } else s

/-- Lines 655-657 of `update`: wrap `_angle` past 360. -/
def updateAngle (s : GameState) : GameState :=
  if 360 < s.angle then { s with angle := s.angle - 360 } else s

/-- `update` (lines 634-660), the timer callback's state change, as the
sequence of its four statement blocks. -/
def update (s : GameState) : GameState :=
  updateAngle (updateFriction (updateSnap (updatePos s)))

/-- Memory filled with zero heights, used for concrete instances. -/
def mem0 : Int → Int → ℝ := fun _ _ => 0

/-- Memory filled with zero vectors, used for concrete instances. -/
def memN0 : Int → Int → Vec3 := fun _ _ => ⟨0, 0, 0⟩

/-- A concrete 2×2 terrain with stale normals and zeroed memory. -/
def T22 : Terrain := Terrain.fresh 2 2 mem0 memN0

/-- A concrete 3×3 terrain whose height field is perfectly flat (all
heights 0) and whose normals are stale. -/
def T33flat : Terrain := Terrain.fresh 3 3 mem0 memN0

/-- The decoded 2×2 image of the spec's load-scaling scenario: first
channel bytes 0, 128, 255, 64 in row-major pixel order (3 bytes per
pixel). -/
def I8 : Image :=
  ⟨2, 2, fun n => [0, 0, 0, 128, 0, 0, 255, 0, 0, 64, 0, 0].getD n 0⟩

/-- A concrete 1×1 image whose only pixel has first channel 7. -/
def I9a : Image := ⟨1, 1, fun n => [7, 1, 2].getD n 0⟩

/-- A concrete 1×1 image agreeing with `I9a` on the first channel but
differing in the other two bytes of the pixel. -/
def I9b : Image := ⟨1, 1, fun n => [7, 9, 9].getD n 0⟩

/-- A concrete game state sitting exactly on the target (distance 0). -/
def sHit : GameState := { initialState 0 with xpos := 55, zpos := 37 }

/-- A concrete game state far from the target (distance 100). -/
def sMiss : GameState := { initialState 0 with xpos := 55, zpos := 137 }

end

theorem Vec3.add_def (a b : Vec3) :
    a + b = ⟨a.x + b.x, a.y + b.y, a.z + b.z⟩ := rfl

theorem rawNormal_eq_reference (hs : Int → Int → ℝ) (w l z x : Int) :
    rawNormal hs w l z x = referenceRawNormal hs w l z x := by
  by_cases hx : 0 < x <;> by_cases hz : 0 < z <;>
    by_cases hw : x < w - 1 <;> by_cases hl : z < l - 1 <;>
      simp [rawNormal, referenceRawNormal, hx, hz, hw, hl,
        Vec3.add_def, Vec3.mk.injEq]

theorem smoothSum_eq_reference (hs : Int → Int → ℝ) (w l z x : Int) :
    smoothSum hs w l z x = referenceSmoothSum hs w l z x := by
  by_cases h1 : 0 < x <;> by_cases h2 : x < w - 1 <;>
    by_cases h3 : 0 < z <;> by_cases h4 : z < l - 1 <;>
      simp [smoothSum, referenceSmoothSum, rawNormal_eq_reference,
        h1, h2, h3, h4, Vec3.add_def, Vec3.mk.injEq]

theorem smoothedNormal_eq_reference (hs : Int → Int → ℝ) (w l z x : Int) :
    smoothedNormal hs w l z x = referenceSmoothedNormal hs w l z x := by
  rw [smoothedNormal, referenceSmoothedNormal, smoothSum_eq_reference]

theorem flat_rawNormal (hs : Int → Int → ℝ) (c : ℝ)
    (hf : ∀ z x : Int, hs z x = c) (w l z x : Int) :
    rawNormal hs w l z x = ⟨0, upCount w l z x, 0⟩ := by
  by_cases h1 : 0 < x <;> by_cases h2 : 0 < z <;>
    by_cases h3 : x < w - 1 <;> by_cases h4 : z < l - 1 <;>
      norm_num [rawNormal, upCount, hf, h1, h2, h3, h4, Vec3.cross,
        Vec3.normalize, Vec3.magnitude, Vec3.add_def, Vec3.mk.injEq,
        Real.sqrt_one]

theorem upCount_nonneg (w l z x : Int) : 0 ≤ upCount w l z x := by
  unfold upCount
  split_ifs <;> norm_num

theorem upCount_interior (w l z x : Int) (h1 : 0 < x) (h2 : x < w - 1)
    (h3 : 0 < z) (h4 : z < l - 1) : upCount w l z x = 4 := by
  norm_num [upCount, h1, h2, h3, h4]

theorem flat_smoothSum_x (hs : Int → Int → ℝ) (c : ℝ)
    (hf : ∀ z x : Int, hs z x = c) (w l z x : Int) :
    (smoothSum hs w l z x).x = 0 := by
  unfold smoothSum
  simp only [flat_rawNormal hs c hf w l]
  split_ifs <;> norm_num [Vec3.add_def, Vec3.scale]

theorem flat_smoothSum_z (hs : Int → Int → ℝ) (c : ℝ)
    (hf : ∀ z x : Int, hs z x = c) (w l z x : Int) :
    (smoothSum hs w l z x).z = 0 := by
  unfold smoothSum
  simp only [flat_rawNormal hs c hf w l]
  split_ifs <;> norm_num [Vec3.add_def, Vec3.scale]

theorem setHeight_fold_hs (f : Nat → ℝ) (y : Nat) :
    ∀ (n : Nat) (t : Terrain) (zi xi : Int),
      (((List.range n).foldl
          (fun t (x : Nat) => t.setHeight (x : Int) (y : Int) (f x)) t)).hs zi xi
      = if zi = (y : Int) ∧ 0 ≤ xi ∧ xi < (n : Int) then f xi.toNat
        else t.hs zi xi := by
  intro n
  induction n with
  | zero =>
    intro t zi xi
    simp only [List.range_zero, List.foldl_nil, Nat.cast_zero]
    rw [if_neg (by omega)]
  | succ n ih =>
    intro t zi xi
    rw [List.range_succ, List.foldl_append]
    simp only [List.foldl_cons, List.foldl_nil]
    rw [Terrain.setHeight]
    dsimp only
    rw [ih]
    split_ifs <;> first | rfl | (exfalso; omega) | (congr 1; omega)

theorem loadRow_hs (img : Image) (amp : ℝ) (y : Nat) (t : Terrain)
    (zi xi : Int) :
    (loadRow img amp y t).hs zi xi
    = if zi = (y : Int) ∧ 0 ≤ xi ∧ xi < (img.width : Int)
      then pixelHeight img amp xi.toNat y else t.hs zi xi :=
  setHeight_fold_hs (fun x => pixelHeight img amp x y) y img.width t zi xi

theorem loadRows_hs (img : Image) (amp : ℝ) :
    ∀ (m : Nat) (t : Terrain) (zi xi : Int),
      (((List.range m).foldl (fun t y => loadRow img amp y t) t)).hs zi xi
      = if 0 ≤ zi ∧ zi < (m : Int) ∧ 0 ≤ xi ∧ xi < (img.width : Int)
        then pixelHeight img amp xi.toNat zi.toNat else t.hs zi xi := by
  intro m
  induction m with
  | zero =>
    intro t zi xi
    simp only [List.range_zero, List.foldl_nil, Nat.cast_zero]
    rw [if_neg (by omega)]
  | succ m ih =>
    intro t zi xi
    rw [List.range_succ, List.foldl_append]
    simp only [List.foldl_cons, List.foldl_nil]
    rw [loadRow_hs, ih]
    split_ifs <;> first | rfl | (exfalso; omega) | (congr 1; omega)

theorem computeNormals_hs (t : Terrain) : (t.computeNormals).hs = t.hs := by
  unfold Terrain.computeNormals
  split <;> rfl

theorem loadTerrain_getHeight (img : Image) (amp : ℝ)
    (memH : Int → Int → ℝ) (memN : Int → Int → Vec3) (x y : Nat)
    (hx : x < img.width) (hy : y < img.height) :
    (loadTerrain img amp memH memN).getHeight (x : Int) (y : Int)
    = amp * ((img.pixels (3 * (y * img.width + x)) : ℝ) / 255 - 0.5) := by
  unfold loadTerrain Terrain.getHeight
  rw [computeNormals_hs, loadRows_hs, if_pos (by omega)]
  simp [pixelHeight, Int.toNat_natCast]

theorem flat_smoothSum_y (hs : Int → Int → ℝ) (c : ℝ)
    (hf : ∀ z x : Int, hs z x = c) (w l z x : Int) :
    upCount w l z x ≤ (smoothSum hs w l z x).y := by
  unfold smoothSum
  simp only [flat_rawNormal hs c hf w l]
  split_ifs <;>
    norm_num [Vec3.add_def, Vec3.scale] <;>
    nlinarith [upCount_nonneg w l z (x-1), upCount_nonneg w l z (x+1),
      upCount_nonneg w l (z-1) x, upCount_nonneg w l (z+1) x]

/-- C1: for every terrain with stale normals, `computeNormals()`
recomputes the full normal field by the spec's two-pass reference
algorithm (pass 1: sum of unit-normalized guarded cross products out×left,
left×in, in×right, right×out; pass 2: raw normal plus 0.5 times each
in-bounds 4-neighbor's raw normal, with the zero-magnitude fallback to
(0,1,0) and no final normalization). -/
theorem C1_computeNormals_two_pass (t : Terrain)
    (hst : t.computedNormals = false) :
    (t.computeNormals).normals
      = fun z x => referenceSmoothedNormal t.hs t.w t.l z x := by
  unfold Terrain.computeNormals
  rw [if_neg (by simp [hst])]
  funext z x
  exact smoothedNormal_eq_reference t.hs t.w t.l z x

/-- Witness for C1 at the concrete stale 2×2 terrain `T22`. -/
theorem C1_witness :
    T22.computedNormals = false ∧
    (T22.computeNormals).normals
      = fun z x => referenceSmoothedNormal T22.hs T22.w T22.l z x :=
  ⟨rfl, C1_computeNormals_two_pass T22 rfl⟩

/-- C2: after any `setHeight`, the next `getNormal` returns the normal
computed from the current height field: `setHeight` marks the normals
stale, `getNormal` recomputes the whole normal field when stale, and the
previously cached normals never influence the result. -/
theorem C2_invalidation (t : Terrain) (x z : Int) (y : ℝ) (x2 z2 : Int)
    (hx : 0 ≤ x2 ∧ x2 < t.w) (hz : 0 ≤ z2 ∧ z2 < t.l) :
    (t.setHeight x z y).computedNormals = false ∧
    (t.setHeight x z y).getNormal x2 z2
      = smoothedNormal (t.setHeight x z y).hs t.w t.l z2 x2 ∧
    ∀ nf : Int → Int → Vec3,
      ({ t with normals := nf }.setHeight x z y).getNormal x2 z2
        = (t.setHeight x z y).getNormal x2 z2 :=
  ⟨rfl, rfl, fun _ => rfl⟩

/-- Witness for C2 on the concrete terrain `T22` with an in-bounds write
at (0,1) and an in-bounds read at (1,0). -/
theorem C2_witness :
    (((0:Int) ≤ 1 ∧ (1:Int) < T22.w) ∧ ((0:Int) ≤ 0 ∧ (0:Int) < T22.l)) ∧
    ((T22.setHeight 0 1 5).computedNormals = false ∧
     (T22.setHeight 0 1 5).getNormal 1 0
       = smoothedNormal (T22.setHeight 0 1 5).hs T22.w T22.l 0 1 ∧
     ∀ nf : Int → Int → Vec3,
       ({ T22 with normals := nf }.setHeight 0 1 5).getNormal 1 0
         = (T22.setHeight 0 1 5).getNormal 1 0) :=
  ⟨⟨⟨by decide, by decide⟩, ⟨by decide, by decide⟩⟩,
   C2_invalidation T22 0 1 5 1 0 ⟨by decide, by decide⟩ ⟨by decide, by decide⟩⟩

/-- C4 counterexample: the constructor does not default heights to 0.
With allocator-provided memory holding 1 everywhere, a freshly
constructed 2×2 terrain with no setHeight calls returns height 1, not 0,
at the in-bounds cell (0,0). -/
theorem C4_counterexample :
    (Terrain.fresh 2 2 (fun _ _ => (1:ℝ)) memN0).getHeight 0 0 = 1 ∧
    (1:ℝ) ≠ 0 :=
  ⟨rfl, by norm_num⟩

/-- C4 (amended): the constructor writes no height values at all
(`new float[w]` leaves the floats indeterminate): `getHeight` on a
freshly constructed terrain returns whatever the allocated memory
already contained, not necessarily 0. -/
theorem C4_fresh_heights_uninitialized (w l : Int) (memH : Int → Int → ℝ)
    (memN : Int → Int → Vec3) (x z : Int) :
    (Terrain.fresh w l memH memN).getHeight x z = memH z x ∧
    (Terrain.fresh w l memH memN).computedNormals = false :=
  ⟨rfl, rfl⟩

/-- C5 counterexample: construction with the non-positive dimensions
width = 0, length = 0 does not fail: it proceeds and produces a terrain
object. -/
theorem C5_counterexample :
    mkTerrainE 0 0 mem0 memN0 = Except.ok (Terrain.fresh 0 0 mem0 memN0) ∧
    ¬(0 < (0:Int)) := by
  constructor
  · norm_num [mkTerrainE]
  · norm_num

/-- C5 (amended): the constructor performs no dimension validation and
no InvalidDimension error exists.  Construction succeeds exactly when
`0 ≤ l` and (`l = 0` or `0 ≤ w`); in particular it succeeds for zero
dimensions, and the only failures are the allocator's
`bad_array_new_length` on a negative `new[]` extent. -/
theorem C5_no_dimension_check (w l : Int) (memH : Int → Int → ℝ)
    (memN : Int → Int → Vec3) :
    (mkTerrainE w l memH memN = Except.ok (Terrain.fresh w l memH memN))
      ↔ (0 ≤ l ∧ (l = 0 ∨ 0 ≤ w)) := by
  unfold mkTerrainE
  split_ifs with h1 h2
  · simp
    omega
  · simp
    omega
  · simp
    omega

/-- C6 counterexample: on the 2×2 terrain `T22`, the out-of-bounds call
`setHeight(5, 0, 1)` does not fail fast: it silently performs the raw
write — observable both through the raw storage changing and through
`getHeight(5, 0)` returning the written value — instead of signaling
OutOfRange. -/
theorem C6_counterexample :
    ¬((5:Int) < T22.w) ∧
    (T22.setHeight 5 0 1).getHeight 5 0 = 1 ∧
    (T22.setHeight 5 0 1).hs ≠ T22.hs := by
  refine ⟨by decide, by simp [Terrain.setHeight, Terrain.getHeight], ?_⟩
  intro h
  have h2 := congrFun (congrFun h 0) 5
  simp [Terrain.setHeight, T22, Terrain.fresh, mem0] at h2

/-- C6 (amended): `setHeight`, `getHeight` and `getNormal` perform no
bounds checking at all: for arbitrary coordinates, in-bounds or not,
they access the raw storage at the computed location (undefined
behavior in C++, modelled as access to the surrounding memory) and no
OutOfRange error is ever signaled. -/
theorem C6_no_bounds_check (t : Terrain) (x z : Int) (y : ℝ) :
    (t.setHeight x z y).hs z x = y ∧
    (t.setHeight x z y).getHeight x z = y ∧
    t.getHeight x z = t.hs z x ∧
    t.getNormal x z = (t.computeNormals).normals z x := by
  refine ⟨?_, ?_, rfl, rfl⟩ <;> simp [Terrain.setHeight, Terrain.getHeight]

/-- C7: `computeNormals()` twice in a row with no intervening
`setHeight` yields bit-identical state (in particular bit-identical
normal fields), and the second call is a no-op because the normals are
already marked valid. -/
theorem C7_idempotent (t : Terrain) :
    (t.computeNormals).computeNormals = t.computeNormals ∧
    ((t.computeNormals).computeNormals).normals = (t.computeNormals).normals ∧
    (t.computeNormals).computedNormals = true := by
  have h : (t.computeNormals).computedNormals = true := by
    unfold Terrain.computeNormals
    split
    · assumption
    · rfl
  have h2 : (t.computeNormals).computeNormals = t.computeNormals := by
    conv_lhs => rw [Terrain.computeNormals]
    rw [h]
    simp
  exact ⟨h2, by rw [h2], h⟩

/-- C3 counterexample: on the perfectly flat 3×3 terrain `T33flat` (all
heights 0), the interior cell (1,1) gets normal (0,8,0) after
`computeNormals()`, not (0,1,0): the raw cross products are each (0,1,0)
rather than zero, so the zero-magnitude fallback never fires. -/
theorem C3_counterexample :
    (T33flat.computeNormals).normals 1 1 ≠ ⟨0, 1, 0⟩ := by
  have hf : ∀ z x : Int, T33flat.hs z x = 0 := fun _ _ => rfl
  have hss : smoothSum T33flat.hs T33flat.w T33flat.l 1 1 = ⟨0, 8, 0⟩ := by
    unfold smoothSum
    simp only [flat_rawNormal T33flat.hs 0 hf T33flat.w T33flat.l]
    norm_num [upCount, Vec3.add_def, Vec3.scale, Vec3.mk.injEq,
      T33flat, Terrain.fresh]
  have hmag : Vec3.magnitude ⟨0, 8, 0⟩ ≠ 0 := by
    unfold Vec3.magnitude
    intro hzero
    rw [Real.sqrt_eq_zero'] at hzero
    norm_num at hzero
  have hn : (T33flat.computeNormals).normals 1 1
      = smoothedNormal T33flat.hs T33flat.w T33flat.l 1 1 := rfl
  rw [hn]
  unfold smoothedNormal
  rw [hss, if_neg hmag]
  simp [Vec3.mk.injEq]

/-- C3 (amended): on a perfectly flat height field every interior cell's
normal after `computeNormals()` points straight up — zero x and z
components and strictly positive y — but it is not the exact vector
(0,1,0): each eligible raw cross product is (0,1,0) (not zero), the
smoothing sum has y at least 4, and the zero-magnitude fallback does not
fire. -/
theorem C3_flat_normals_point_up (t : Terrain) (c : ℝ)
    (hf : ∀ z x : Int, t.hs z x = c) (hst : t.computedNormals = false)
    (x z : Int) (h1 : 0 < x) (h2 : x < t.w - 1) (h3 : 0 < z)
    (h4 : z < t.l - 1) :
    ((t.computeNormals).normals z x).x = 0 ∧
    0 < ((t.computeNormals).normals z x).y ∧
    ((t.computeNormals).normals z x).z = 0 := by
  have hn : (t.computeNormals).normals z x
      = smoothedNormal t.hs t.w t.l z x := by
    unfold Terrain.computeNormals
    rw [if_neg (by simp [hst])]
  have hy : (4:ℝ) ≤ (smoothSum t.hs t.w t.l z x).y := by
    have hcount := flat_smoothSum_y t.hs c hf t.w t.l z x
    rw [upCount_interior t.w t.l z x h1 h2 h3 h4] at hcount
    exact hcount
  have hx0 := flat_smoothSum_x t.hs c hf t.w t.l z x
  have hz0 := flat_smoothSum_z t.hs c hf t.w t.l z x
  have hmag : (smoothSum t.hs t.w t.l z x).magnitude ≠ 0 := by
    unfold Vec3.magnitude
    rw [hx0, hz0]
    intro hzero
    rw [Real.sqrt_eq_zero'] at hzero
    nlinarith [hy]
  rw [hn]
  unfold smoothedNormal
  rw [if_neg hmag]
  exact ⟨hx0, by linarith, hz0⟩

/-- Witness for C3 at the concrete flat terrain `T33flat` and its
interior cell (1,1). -/
theorem C3_witness :
    ((∀ z x : Int, T33flat.hs z x = 0) ∧ T33flat.computedNormals = false ∧
     (0:Int) < 1 ∧ (1:Int) < T33flat.w - 1 ∧ (1:Int) < T33flat.l - 1) ∧
    (((T33flat.computeNormals).normals 1 1).x = 0 ∧
     0 < ((T33flat.computeNormals).normals 1 1).y ∧
     ((T33flat.computeNormals).normals 1 1).z = 0) :=
  ⟨⟨fun _ _ => rfl, rfl, by decide, by decide, by decide⟩,
   C3_flat_normals_point_up T33flat 0 (fun _ _ => rfl) rfl 1 1
     (by decide) (by decide) (by decide) (by decide)⟩

/-- C8 counterexample: for the decoded 2×2 image with first-channel
bytes [0, 128, 255, 64] and amplitude 20, the height of the last pixel
(x=1, y=1, byte 64) is 20×(64/255−0.5) = −254/51 ≈ −4.98, which is not
approximately −2.98 as the claim states (the two differ by 2). -/
theorem C8_counterexample :
    (loadTerrain I8 20 mem0 memN0).getHeight 1 1 = -254/51 ∧
    ¬(|(-254/51 : ℝ) - (-2.98)| < 1) := by
  constructor
  · have hp : I8.pixels (3 * (1 * I8.width + 1)) = 64 := by decide
    have h := loadTerrain_getHeight I8 20 mem0 memN0 1 1 (by decide) (by decide)
    rw [hp] at h
    simp only [Nat.cast_one] at h
    rw [h]
    norm_num
  · rw [abs_lt]
    norm_num

/-- C8 (amended): the loader sets each cell's height to
amplitude × (c/255 − 0.5), where c is the first-channel byte of the
pixel at that cell; for the 2×2 image with bytes [0, 128, 255, 64] and
amplitude 20 the heights are −10, 2/51 (≈ +0.039), 10 and −254/51
(≈ −4.98) in row-major order — not the −0.078 and −2.98 the spec's
example lists for the second and fourth pixels. -/
theorem C8_load_scaling (img : Image) (amp : ℝ) (memH : Int → Int → ℝ)
    (memN : Int → Int → Vec3) (x y : Nat) (hx : x < img.width)
    (hy : y < img.height) :
    (loadTerrain img amp memH memN).getHeight (x : Int) (y : Int)
      = amp * ((img.pixels (3 * (y * img.width + x)) : ℝ) / 255 - 0.5) :=
  loadTerrain_getHeight img amp memH memN x y hx hy

/-- Witness for C8 at the first pixel of the concrete image `I8`, where
the formula gives 20 × (0/255 − 0.5) = −10. -/
theorem C8_witness :
    ((0:ℕ) < I8.width ∧ (0:ℕ) < I8.height) ∧
    (loadTerrain I8 20 mem0 memN0).getHeight ((0:ℕ) : Int) ((0:ℕ) : Int)
      = 20 * ((I8.pixels (3 * (0 * I8.width + 0)) : ℝ) / 255 - 0.5) ∧
    (20:ℝ) * ((I8.pixels (3 * (0 * I8.width + 0)) : ℝ) / 255 - 0.5) = -10 :=
  ⟨⟨by decide, by decide⟩,
   C8_load_scaling I8 20 mem0 memN0 0 0 (by decide) (by decide),
   by norm_num [I8]⟩

/-- C9: the loader reads only the first channel of each pixel: two
decoded images of equal dimensions whose buffers agree at every index
3×(y×width+x) — whatever the other two bytes of each pixel hold — load
to identical terrains (equal heights at every cell). -/
theorem C9_first_channel_only (img1 img2 : Image) (amp : ℝ)
    (memH : Int → Int → ℝ) (memN : Int → Int → Vec3)
    (hw : img1.width = img2.width) (hh : img1.height = img2.height)
    (hpx : ∀ x : Nat, x < img1.width → ∀ y : Nat, y < img1.height →
      img1.pixels (3 * (y * img1.width + x))
        = img2.pixels (3 * (y * img2.width + x))) :
    ∀ x : Nat, x < img1.width → ∀ y : Nat, y < img1.height →
      (loadTerrain img1 amp memH memN).getHeight (x : Int) (y : Int)
        = (loadTerrain img2 amp memH memN).getHeight (x : Int) (y : Int) := by
  intro x hx y hy
  rw [loadTerrain_getHeight img1 amp memH memN x y hx hy,
      loadTerrain_getHeight img2 amp memH memN x y (hw ▸ hx) (hh ▸ hy),
      hpx x hx y hy]

/-- Witness for C9: the concrete 1×1 images `I9a` and `I9b` agree on the
first channel byte but differ in the other two bytes of the pixel, and
they load to the same height at the only cell. -/
theorem C9_witness :
    (I9a.width = I9b.width ∧ I9a.height = I9b.height ∧
     (∀ x : Nat, x < I9a.width → ∀ y : Nat, y < I9a.height →
       I9a.pixels (3 * (y * I9a.width + x))
         = I9b.pixels (3 * (y * I9b.width + x))) ∧
     I9a.pixels 1 ≠ I9b.pixels 1 ∧ (0:ℕ) < I9a.width ∧ (0:ℕ) < I9a.height) ∧
    (loadTerrain I9a 20 mem0 memN0).getHeight ((0:ℕ) : Int) ((0:ℕ) : Int)
      = (loadTerrain I9b 20 mem0 memN0).getHeight ((0:ℕ) : Int) ((0:ℕ) : Int) :=
  ⟨⟨rfl, rfl, by decide, by decide, by decide, by decide⟩,
   C9_first_channel_only I9a I9b 20 mem0 memN0 rfl rfl (by decide)
     0 (by decide) 0 (by decide)⟩

theorem updatePos_score (s : GameState) : (updatePos s).score = s.score := rfl

theorem updateSnap_score (s : GameState) : (updateSnap s).score = s.score := by
  unfold updateSnap
  dsimp only
  repeat' split
  all_goals rfl

theorem updateFriction_score (s : GameState) :
    (updateFriction s).score = s.score := by
  unfold updateFriction
  dsimp only
  repeat' split
  all_goals rfl

theorem updateAngle_score (s : GameState) : (updateAngle s).score = s.score := by
  unfold updateAngle
  split <;> rfl

theorem update_score (s : GameState) : (update s).score = s.score := by
  unfold update
  rw [updateAngle_score, updateFriction_score, updateSnap_score,
    updatePos_score]

theorem handleKeypress_score (k : Key) (s : GameState) :
    (handleKeypress k s).score = s.score := by
  cases k <;> rfl

theorem handleKeypress2_score (k : SpecialKey) (s : GameState) :
    (handleKeypress2 k s).score = s.score := by
  cases k <;> rfl

theorem detect_hit (r : Nat) (s : GameState) (h : hitDist s < 7.5) :
    detect r s = { initialState r with score := s.score + 1 } := by
  unfold detect
  rw [if_pos h]
  rfl

theorem detect_miss (r : Nat) (s : GameState) (h : ¬ hitDist s < 7.5) :
    detect r s = s := by
  unfold detect
  rw [if_neg h]

theorem detect_score_mono (r : Nat) (s : GameState) :
    s.score ≤ (detect r s).score := by
  unfold detect
  split
  · dsimp only
    omega
  · exact le_refl _

/-- C10: across every step of the game state the score never decreases;
the timer update and both keyboard handlers leave it unchanged, and
`detect` is the only operation that changes it: when
sqrt((xpos−tarx)²+(zpos−tarz−22)²) < 7.5 it increments the score by
exactly 1 while resetting every other game-state scalar to its startup
value (with a fresh random draw for the target's z), and otherwise it
leaves the whole game state unchanged. -/
theorem C10_score_monotone (s : GameState) (k : Key) (sk : SpecialKey)
    (r : Nat) :
    (update s).score = s.score ∧
    (handleKeypress k s).score = s.score ∧
    (handleKeypress2 sk s).score = s.score ∧
    s.score ≤ (detect r s).score ∧
    (hitDist s < 7.5 → detect r s = { initialState r with score := s.score + 1 }) ∧
    (¬ hitDist s < 7.5 → detect r s = s) :=
  ⟨update_score s, handleKeypress_score k s, handleKeypress2_score sk s,
   detect_score_mono r s, detect_hit r s, detect_miss r s⟩

/-- Witness for C10 at two concrete states: `sHit` sits exactly on the
target (distance 0 < 7.5), `sMiss` is 100 away (not < 7.5). -/
theorem C10_witness :
    (hitDist sHit < 7.5 ∧
     detect 0 sHit = { initialState 0 with score := sHit.score + 1 }) ∧
    (¬ hitDist sMiss < 7.5 ∧ detect 0 sMiss = sMiss) := by
  have h1 : hitDist sHit < 7.5 := by
    norm_num [hitDist, sHit, initialState, Real.sqrt_zero]
  have h2 : ¬ hitDist sMiss < 7.5 := by
    have hm : hitDist sMiss = 100 := by
      norm_num [hitDist, sMiss, initialState]
      rw [show ((10000:ℝ)) = 100 ^ 2 by norm_num]
      exact Real.sqrt_sq (by norm_num)
    rw [hm]
    norm_num
  exact ⟨⟨h1, (C10_score_monotone sHit Key.other SpecialKey.other 0).2.2.2.2.1 h1⟩,
         ⟨h2, (C10_score_monotone sMiss Key.other SpecialKey.other 0).2.2.2.2.2 h2⟩⟩
